import Mathlib

/-!
Verification of the advanced scraping example
(`src/advanced/advanced-scraping-example.js`).

The JavaScript source drives a browser: it loads index pages of football
matches into an iframe, filters the candidates listed there against a
source fixture, ranks the survivors by trigram similarity of team names,
loads the best candidate's detail page, and appends one CSV row per
fixture to a textarea that doubles as the persistent output log.

We shallow-embed the pure data flow of that script.  Browser-provided
facilities (the DOM, `Date.prototype.toISOString`, the externally loaded
`Trigrams` class) are modelled as opaque inputs: page contents become
fields of an environment, the trigram similarity becomes a function
parameter, and an ISO timestamp becomes the string the platform handed
us.  Everything the script itself computes is translated directly.
-/

namespace Scrape

/-- A row of the input CSV (`matches-to-look-up.csv`): all fields are the
raw strings produced by `loadSimpleCSV`. -/
structure SourceMatch where
  div : String
  matchdate : String
  hometeam : String
  awayteam : String
  homegoals : String
  awaygoals : String
  deriving DecidableEq, Repr

/-- A candidate extracted from an index page by `getMatches`:
`{ home, score, away, URL, div }`. -/
structure PageMatch where
  home : String
  score : String
  away : String
  URL : String
  div : String
  deriving DecidableEq, Repr

/-- One goal event `{ minute, team, score }` as extracted from a detail
page (`team` is the string `'home'` or `'away'`, `minute` the `parseInt`
of the minute text). -/
structure Goal where
  minute : Int
  team : String
  score : String
  deriving DecidableEq, Repr

/-- The data the page parser can extract from one loaded detail page:
the trimmed kick-off text, and the goal lists produced by the
Scotland-style selector (`table.matches.events tr`) and by the
England-style selector (`ul.scorer-info li`). -/
structure DetailPage where
  kickOff : String
  scotGoals : List Goal
  engGoals : List Goal
  deriving DecidableEq, Repr

/-- The external site, as far as the script can observe it: the candidate
list shown on each index-page URL (after the UK filter) and the detail
page behind each match URL. -/
structure Env where
  pages : String → List PageMatch
  details : String → DetailPage

/-! ## CSV serialization (`writeCSV`) -/

/-- The JavaScript values handed to `writeCSV`.  `vnull` stands for both
`null` and `undefined` (the source's `value == null` test catches both);
`vnum` is an integer-valued number; `vdec` is the number `m / 1000`
exactly (the result of `parseFloat(q.toFixed(3))`); `vdate` carries the
ISO text that the platform's `toISOString()` returned. -/
inductive Value where
  | vnull : Value
  | vnum : Int → Value
  | vdec : Int → Value
  | vbool : Bool → Value
  | vdate : String → Value
  | vstr : String → Value
  deriving DecidableEq, Repr

/-- `String(value).replace(/"/g, '""')` on the character list: every
double-quote character is doubled (the regex has the `g` flag). -/
def doubleQuotes : List Char → List Char
  | [] => []
  | c :: cs => if c = '"' then '"' :: '"' :: doubleQuotes cs else c :: doubleQuotes cs

/-- JavaScript `String.prototype.replace` with a plain (one-character)
pattern: only the first occurrence is replaced, by the given
replacement list. -/
def replaceFirstChar (pat : Char) (rep : List Char) : List Char → List Char
  | [] => []
  | c :: cs => if c = pat then rep ++ cs else c :: replaceFirstChar pat rep cs

/-- `value.toISOString().replace('T', ' ').replace('Z', '')`: the date
branch of `writeCSV`, applied to the ISO text (the `toISOString` call
itself is a platform primitive and is modelled as the input). -/
def dateText (iso : String) : String :=
  ⟨replaceFirstChar 'Z' [] (replaceFirstChar 'T' [' '] iso.data)⟩

/-- Decimal text of the number `m / 1000`, as
`String(parseFloat(q.toFixed(3)))` renders it: integer part, then the
fractional digits with trailing zeros dropped. -/
def thousandthsRepr (m : Int) : String :=
  let a := m.natAbs
  let sign := if m < 0 then "-" else ""
  let ip := a / 1000
  let fr := a % 1000
  if fr = 0 then sign ++ toString ip
  else if fr % 100 = 0 then sign ++ toString ip ++ "." ++ toString (fr / 100)
  else if fr % 10 = 0 then
    sign ++ toString ip ++ "." ++ (if fr / 10 < 10 then "0" else "") ++ toString (fr / 10)
  else
    sign ++ toString ip ++ "." ++ (if fr < 10 then "00" else if fr < 100 then "0" else "")
      ++ toString fr

/-- Drop the trailing `'0'` characters of a digit list. -/
def stripTrailingZeros (l : List Char) : List Char :=
  (l.reverse.dropWhile fun c => c = '0').reverse

/-- The thousandths `fr < 1000` as exactly three decimal digits. -/
def pad3 (fr : Nat) : String :=
  (if fr < 10 then "00" else if fr < 100 then "0" else "") ++ toString fr

/-- The decimal text of the number `m / 1000`, stated the way the spec
reads: optional minus sign, the decimal text of the integer part, and —
when the thousandths are not all zero — a decimal point followed by the
three thousandths digits with their trailing zeros removed.  This is the
canonical shortest form that `String(parseFloat(q.toFixed(3)))`
produces; `thousandthsRepr` is proven to coincide with it. -/
def decimalTextThousandths (m : Int) : String :=
  let a := m.natAbs
  let sign := if m < 0 then "-" else ""
  let ds := stripTrailingZeros (pad3 (a % 1000)).data
  sign ++ toString (a / 1000) ++ (if ds.isEmpty then "" else "." ++ String.mk ds)

/-- The per-value serialization of `writeCSV`: null/undefined become the
empty field, numbers their decimal text, booleans `'1'`/`'0'`, dates the
ISO text with `'T'` turned into a space and the trailing `'Z'` dropped,
and everything else is double-quoted with internal quotes doubled. -/
def serializeValue : Value → String
  | .vnull => ""
  | .vnum n => toString n
  | .vdec m => thousandthsRepr m
  | .vbool b => if b then "1" else "0"
  | .vdate iso => dateText iso
  | .vstr s => "\"" ++ (⟨doubleQuotes s.data⟩ : String) ++ "\""

/-! ## Division map and hard filter -/

/-- The `leagueMap` object: division code to Soccerway path. -/
def leagueMap : String → Option String
  | "E0" => some "england/premier-league"
  | "E1" => some "england/championship"
  | "E2" => some "england/league-one"
  | "E3" => some "england/league-two"
  | "EC" => some "england/conference"
  | "SC0" => some "scotland/premier-league"
  | "SC1" => some "scotland/first-division"
  | "SC2" => some "scotland/second-division"
  | "SC3" => some "scotland/third-division"
  | _ => none

/-- `leagueMap[code]` as the argument of `String.prototype.startsWith`:
a missing key yields `undefined`, which `startsWith` coerces to the
string `"undefined"`. -/
def leagueLookup (code : String) : String :=
  (leagueMap code).getD "undefined"

/-- The score string the source fixture is compared against:
`` `${sourceMatch.homegoals} - ${sourceMatch.awaygoals}` ``. -/
def scoreOf (sm : SourceMatch) : String :=
  sm.homegoals ++ " - " ++ sm.awaygoals

/-- `String.prototype.startsWith`: the pattern's characters are a prefix
of the receiver's characters. -/
def jsStartsWith (s pre : String) : Bool :=
  pre.data.isPrefixOf s.data

/-- The hard filter (`matchingPageMatches`): keep the page matches whose
score equals the source's score string and whose division path starts
with the mapped league path. -/
def matchingPageMatches (sm : SourceMatch) (pageMatches : List PageMatch) : List PageMatch :=
  pageMatches.filter fun m =>
    m.score == scoreOf sm && jsStartsWith m.div (leagueLookup sm.div)

/-! ## Best-match selection -/

/-- The `forEach` accumulation over the filtered matches: starting from
`bestMatch = null, bestMatchQuality = 0`, each candidate replaces the
current best exactly when its quality is strictly greater. -/
def selectBest (q : PageMatch → ℚ) (ms : List PageMatch) : Option PageMatch × ℚ :=
  ms.foldl (fun s m => if s.2 < q m then (some m, q m) else s) (none, 0)

/-- `` `${a}  ${b}` `` — the two team names joined by two spaces before
being handed to the trigram index. -/
def joinNames (a b : String) : String :=
  a ++ "  " ++ b

/-- The candidate-ranking quality function for one source match, given
the externally loaded trigram similarity `qf` (a function of the two
joined-name strings). -/
def qOf (qf : String → String → ℚ) (sm : SourceMatch) (m : PageMatch) : ℚ :=
  qf (joinNames sm.hometeam sm.awayteam) (joinNames m.home m.away)

/-! ## Detail extraction and the output row -/

/-- Goal extraction with fallback: the Scotland-style list is used unless
it is empty, in which case the England-style list is used
(`if (goals.length == 0) goals = ...`). -/
def goalsOf (p : DetailPage) : List Goal :=
  if p.scotGoals.length = 0 then p.engGoals else p.scotGoals

/-- `` goals.map(goal => `${goal.minute} : ${goal.team} : ${goal.score}`).join(' / ') ``. -/
def goalsText (goals : List Goal) : String :=
  String.intercalate " / " (goals.map fun g =>
    toString g.minute ++ " : " ++ g.team ++ " : " ++ g.score)

/-- The match date with every dash replaced by a slash: the global
single-character regex replace is a character-wise map. -/
def slashDashes (s : String) : String :=
  ⟨s.data.map fun c => if c = '-' then '/' else c⟩

/-- The index-page URL for a source match:
`https://uk.soccerway.com/matches/` followed by the match date with every
dash replaced by a slash, then a trailing slash. -/
def dateURL (sm : SourceMatch) : String :=
  "https://uk.soccerway.com/matches/" ++ slashDashes sm.matchdate ++ "/"

/-- The numeric value of a digit list read left to right. -/
def natOfDigits (l : List Char) : Nat :=
  l.foldl (fun n c => n * 10 + (c.toNat - '0'.toNat)) 0

/-- `parseInt`: an optional leading minus sign, then the longest leading
run of digits (input rows are well-formed per the source's simple CSV
format, so the NaN case for a digitless field is out of scope). -/
def jsParseInt (s : String) : Int :=
  match s.data with
  | '-' :: rest => -Int.ofNat (natOfDigits (rest.takeWhile Char.isDigit))
  | l => Int.ofNat (natOfDigits (l.takeWhile Char.isDigit))

/-- `q.toFixed(3)` as thousandths: the floor of `1000 * x + 1 / 2`
(round to nearest, larger candidate on a tie, per the ECMAScript
`toFixed` algorithm), computed on the numerator and denominator:
`1000 * x + 1 / 2 = (2000 * num + den) / (2 * den)`. -/
def toFixed3 (x : ℚ) : Int :=
  Int.fdiv (2000 * x.num + (x.den : Int)) (2 * (x.den : Int))

/-- The best match and its quality for one source match against the
environment's index page for its date. -/
def bestOf (env : Env) (qf : String → String → ℚ) (sm : SourceMatch) :
    Option PageMatch × ℚ :=
  selectBest (qOf qf sm) (matchingPageMatches sm (env.pages (dateURL sm)))

/-- The eleven values handed to `writeCSV` for one source match: the
source fields, the parsed goal counts, the kick-off text (null when no
match), the serialized goal events, the rounded match quality, and the
matched team names (null when no match). -/
def fixtureValues (env : Env) (qf : String → String → ℚ) (sm : SourceMatch) :
    List Value :=
  let best := (bestOf env qf sm).1
  let bq := (bestOf env qf sm).2
  let kickOff : Value := match best with
    | none => .vnull
    | some m => .vstr (env.details m.URL).kickOff
  let goals : List Goal := match best with
    | none => []
    | some m => goalsOf (env.details m.URL)
  [ .vstr sm.div, .vstr sm.matchdate, .vstr sm.hometeam, .vstr sm.awayteam,
    .vnum (jsParseInt sm.homegoals), .vnum (jsParseInt sm.awaygoals),
    kickOff, .vstr (goalsText goals), .vdec (toFixed3 bq),
    (match best with | none => .vnull | some m => .vstr m.home),
    (match best with | none => .vnull | some m => .vstr m.away) ]

/-- The CSV text of one output row, before the trailing newline that
`writeCSV` appends: `columns.join(',')`. -/
def rowOf (env : Env) (qf : String → String → ℚ) (sm : SourceMatch) : String :=
  String.intercalate "," ((fixtureValues env qf sm).map serializeValue)

/-! ## Navigation, delays and the per-fixture trace -/

/-- The externally observable actions of one loop iteration, in program
order: issuing a navigation (`openURLInFrame`), a randomized delay
(`sleepBetween lo hi`), the UK-filter click with its mutation wait
(`clickUK`), and appending one row (`writeCSV`). -/
inductive Event where
  | nav : String → Event
  | sleep : Nat → Nat → Event
  | clickUK : Event
  | write : String → Event
  deriving DecidableEq, Repr

/-- The index-page load-or-reuse step: when the index frame's location
differs from the date URL, navigate there, sleep between 1 and 2
seconds, and click the UK filter; otherwise do nothing.  Returns the
frame's new location and the emitted events. -/
def ensureDateLoaded (loc url : String) : String × List Event :=
  if loc ≠ url then (url, [.nav url, .sleep 1 2, .clickUK]) else (loc, [])

/-- Is the event a navigation? -/
def isNav : Event → Bool
  | .nav _ => true
  | _ => false

/-- Is the event a rate-limiter delay? -/
def isSleep : Event → Bool
  | .sleep _ _ => true
  | _ => false

/-- Number of navigations in an event list. -/
def navCount (es : List Event) : Nat :=
  es.countP isNav

/-- Every navigation in the list is immediately preceded by a delay;
`prevIsSleep` says whether the event just before the list was one. -/
def navsDelayedFrom (prevIsSleep : Bool) : List Event → Bool
  | [] => true
  | e :: rest => (!isNav e || prevIsSleep) && navsDelayedFrom (isSleep e) rest

/-- Every navigation in the whole trace has a delay directly before it
(the first event has nothing before it). -/
def navsDelayed (tr : List Event) : Bool :=
  navsDelayedFrom false tr

/-- One iteration of the main loop as a state transformer on the index
frame's location, returning the new location and the event trace, in
source order: the load-or-reuse of the date's index page, then — when a
best match was found — a 1–2 second sleep and the detail-page
navigation, then the row append and the final 2–5 second sleep. -/
def stepFixture (env : Env) (qf : String → String → ℚ) (loc : String)
    (sm : SourceMatch) : String × List Event :=
  let e1 := ensureDateLoaded loc (dateURL sm)
  let e2 : List Event := match (bestOf env qf sm).1 with
    | none => []
    | some m => [.sleep 1 2, .nav m.URL]
  (e1.1, e1.2 ++ e2 ++ [.write (rowOf env qf sm), .sleep 2 5])

/-! ## The `clickUK` mutation observer -/

/-- One DOM mutation record, reduced to what the observer callback
inspects: the lengths of its added- and removed-node lists. -/
structure MutationRecord where
  addedNodes : Nat
  removedNodes : Nat
  deriving DecidableEq, Repr

/-- `mutations.some(mutation => mutation.removedNodes.length > 0)`. -/
def removedOverlay (batch : List MutationRecord) : Bool :=
  batch.any fun m => decide (0 < m.removedNodes)

/-- Observer state: whether it is still connected, and how many times the
promise has been resolved. -/
structure ObsState where
  connected : Bool
  resolved : Nat
  deriving DecidableEq, Repr

/-- Delivery of one mutation batch: a connected observer whose batch
contains a removal disconnects itself and resolves; otherwise nothing
happens (a disconnected observer receives no callbacks at all). -/
def obsStep (s : ObsState) (batch : List MutationRecord) : ObsState :=
  if s.connected && removedOverlay batch then ⟨false, s.resolved + 1⟩ else s

/-- The observer installed by `clickUK`, run over a sequence of mutation
batches: starts connected with zero resolutions. -/
def clickUKRun (batches : List (List MutationRecord)) : ObsState :=
  batches.foldl obsStep ⟨true, 0⟩

/-! ## The resumable main loop -/

/-- `textarea.value.match(.n.g)` row counting: the number of newline
characters in the output log (zero when there are none). -/
def countNewlines (s : String) : Nat :=
  s.data.count '\n'

/-- The remaining iterations of the main loop: for each remaining source
match, in order, append its row and a newline to the log
(`textarea.value += columns.join(',') + '\n'`). -/
def writeRows (env : Env) (qf : String → String → ℚ) :
    List SourceMatch → String → String
  | [], log => log
  | sm :: rest, log => writeRows env qf rest (log ++ rowOf env qf sm ++ "\n")

/-- The whole main loop from a given persisted log: count the newlines
already in the log, skip that many leading source matches, and process
the rest. -/
def mainRun (env : Env) (qf : String → String → ℚ) (csv : List SourceMatch)
    (log : String) : String :=
  writeRows env qf (csv.drop (countNewlines log)) log

/-! ## Sample data -/

/-- The spec's example source fixture. -/
def smEx : SourceMatch :=
  ⟨"E0", "2018-01-01", "Town FC", "City FC", "2", "1"⟩

/-- The spec's example index-page candidate. -/
def pmEx : PageMatch :=
  ⟨"Town F.C.", "2 - 1", "City F.C.", "detail-url", "england/premier-league"⟩

/-- The spec's example detail page: kickoff 15:00 and goals at minutes
10 (home), 55 (away) and 80 (home). -/
def dpEx : DetailPage :=
  ⟨"15:00", [⟨10, "home", "1-0"⟩, ⟨55, "away", "1-1"⟩, ⟨80, "home", "2-1"⟩], []⟩

/-- An environment showing `pmEx` on every index page and `dpEx` behind
every detail URL. -/
def envEx : Env :=
  ⟨fun _ => [pmEx], fun _ => dpEx⟩

/-- A second fixture (a Scottish one, on another date), for multi-row
runs. -/
def smEx2 : SourceMatch :=
  ⟨"SC0", "2018-01-02", "North FC", "South FC", "0", "0"⟩

/-! ## Helper lemmas -/

theorem foldl_select_no_update (q : PageMatch → ℚ) :
    ∀ (ms : List PageMatch) (s : Option PageMatch × ℚ),
      (∀ m ∈ ms, q m ≤ s.2) →
      ms.foldl (fun s m => if s.2 < q m then (some m, q m) else s) s = s := by
  intro ms
  induction ms with
  | nil => intro s _; rfl
  | cons m tl ih =>
    intro s h
    have hm : q m ≤ s.2 := h m (List.mem_cons_self m tl)
    simp only [List.foldl_cons, if_neg (not_lt.mpr hm)]
    exact ih s fun x hx => h x (List.mem_cons_of_mem m hx)

theorem replaceFirstChar_append_of_not_mem (pat : Char) (rep : List Char) :
    ∀ (a b : List Char), pat ∉ a →
      replaceFirstChar pat rep (a ++ b) = a ++ replaceFirstChar pat rep b := by
  intro a
  induction a with
  | nil => intro b _; rfl
  | cons c cs ih =>
    intro b h
    have hc : ¬c = pat := fun hcp => h (hcp ▸ List.mem_cons_self c cs)
    simp only [List.cons_append, replaceFirstChar, if_neg hc]
    rw [show cs.append b = cs ++ b from rfl, ih b fun hin => h (List.mem_cons_of_mem c hin)]

set_option maxRecDepth 10000 in
set_option maxHeartbeats 4000000 in
theorem fracText_eq_stripZeros : ∀ fr : Nat, fr < 1000 →
    (if fr = 0 then "" else if fr % 100 = 0 then "." ++ toString (fr / 100)
     else if fr % 10 = 0 then "." ++ (if fr / 10 < 10 then "0" else "") ++ toString (fr / 10)
     else "." ++ (if fr < 10 then "00" else if fr < 100 then "0" else "") ++ toString fr)
    = (if (stripTrailingZeros (pad3 fr).data).isEmpty then ""
       else "." ++ String.mk (stripTrailingZeros (pad3 fr).data)) := by
  decide

theorem thousandthsRepr_eq_decimalText (m : Int) :
    thousandthsRepr m = decimalTextThousandths m := by
  have hfr : m.natAbs % 1000 < 1000 := Nat.mod_lt _ (by norm_num)
  have hpiece := fracText_eq_stripZeros (m.natAbs % 1000) hfr
  simp only [thousandthsRepr, decimalTextThousandths]
  rw [← hpiece]
  by_cases h0 : m.natAbs % 1000 = 0 <;>
    by_cases h100 : m.natAbs % 1000 % 100 = 0 <;>
      by_cases h10 : m.natAbs % 1000 % 10 = 0 <;>
        simp [h0, h100, h10, String.append_assoc, String.append_empty]

/-- A second index-page candidate, for tie-breaking examples. -/
def pmEx2 : PageMatch :=
  ⟨"North F.C.", "0 - 0", "South F.C.", "detail-url-2", "scotland/premier-league"⟩

theorem foldl_select_first_max (q : PageMatch → ℚ) :
    ∀ (ms : List PageMatch) (i : Nat) (hi : i < ms.length) (b : Option PageMatch) (bq : ℚ),
      bq < q ms[i] →
      (∀ (j : Nat) (hj : j < ms.length), q ms[j] ≤ q ms[i]) →
      (∀ (j : Nat) (hj1 : j < i) (hj2 : j < ms.length), q ms[j] < q ms[i]) →
      ms.foldl (fun s m => if s.2 < q m then (some m, q m) else s) (b, bq)
        = (some ms[i], q ms[i]) := by
  intro ms
  induction ms with
  | nil => intro i hi; exact absurd hi (by simp)
  | cons m tl ih =>
    intro i hi b bq hbq hmax hfirst
    cases i with
    | zero =>
      simp only [List.getElem_cons_zero] at hbq hmax ⊢
      simp only [List.foldl_cons, if_pos hbq]
      apply foldl_select_no_update
      intro x hx
      rcases List.mem_iff_getElem.mp hx with ⟨j, hj, rfl⟩
      have := hmax (j + 1) (Nat.succ_lt_succ hj)
      simpa using this
    | succ i' =>
      have hi' : i' < tl.length := Nat.lt_of_succ_lt_succ hi
      have hmi : q m < q (tl.get ⟨i', hi'⟩) := by
        have h0 := hfirst 0 (Nat.succ_pos i') (Nat.succ_pos tl.length)
        simpa using h0
      have hbq' : bq < q (tl.get ⟨i', hi'⟩) := by simpa using hbq
      have hmax' : ∀ (j : Nat) (hj : j < tl.length),
          q (tl.get ⟨j, hj⟩) ≤ q (tl.get ⟨i', hi'⟩) := by
        intro j hj
        have := hmax (j + 1) (Nat.succ_lt_succ hj)
        simpa using this
      have hfirst' : ∀ (j : Nat) (hj1 : j < i') (hj2 : j < tl.length),
          q (tl.get ⟨j, hj2⟩) < q (tl.get ⟨i', hi'⟩) := by
        intro j hj1 hj2
        have := hfirst (j + 1) (Nat.succ_lt_succ hj1) (Nat.succ_lt_succ hj2)
        simpa using this
      simp only [List.foldl_cons]
      by_cases hstep : bq < q m
      · rw [if_pos hstep]
        have := ih i' hi' (some m) (q m) hmi
          (by simpa using hmax') (by simpa using hfirst')
        simpa using this
      · rw [if_neg hstep]
        have := ih i' hi' b bq (by simpa using hbq')
          (by simpa using hmax') (by simpa using hfirst')
        simpa using this

/-! ## Claims -/

/-- The text appended to the log by processing the given source matches
in order: each row followed by its terminating newline. -/
def rowsText (env : Env) (qf : String → String → ℚ) : List SourceMatch → String
  | [] => ""
  | sm :: rest => rowOf env qf sm ++ "\n" ++ rowsText env qf rest

theorem writeRows_eq (env : Env) (qf : String → String → ℚ) :
    ∀ (sms : List SourceMatch) (log : String),
      writeRows env qf sms log = log ++ rowsText env qf sms := by
  intro sms
  induction sms with
  | nil => intro log; simp [writeRows, rowsText]
  | cons sm rest ih =>
    intro log
    rw [writeRows, rowsText, ih]
    simp [String.append_assoc]

theorem countNewlines_append (a b : String) :
    countNewlines (a ++ b) = countNewlines a + countNewlines b := by
  simp [countNewlines, String.data_append, List.count_append]

theorem countNewlines_rowsText (env : Env) (qf : String → String → ℚ) :
    ∀ sms : List SourceMatch,
      (∀ sm ∈ sms, countNewlines (rowOf env qf sm) = 0) →
      countNewlines (rowsText env qf sms) = sms.length := by
  intro sms
  induction sms with
  | nil => intro _; rfl
  | cons sm rest ih =>
    intro h
    rw [rowsText, countNewlines_append, countNewlines_append,
      h sm (List.mem_cons_self sm rest),
      ih fun x hx => h x (List.mem_cons_of_mem sm hx)]
    simp [countNewlines]
    omega

theorem rowsText_append (env : Env) (qf : String → String → ℚ) :
    ∀ a b : List SourceMatch,
      rowsText env qf (a ++ b) = rowsText env qf a ++ rowsText env qf b := by
  intro a b
  induction a with
  | nil => simp [rowsText]
  | cons sm rest ih =>
    rw [List.cons_append, rowsText, rowsText, ih]
    simp [String.append_assoc]

/-- C1.  Resume idempotence: after an uninterrupted prefix run over the
first `n` fixtures (writing `n` newline-terminated rows, assuming rows
contain no embedded newline), the restart counts exactly `n` newlines in
the log, therefore resumes the loop at fixture index `n`, and the
restarted run produces a final log identical to that of an uninterrupted
run over the whole list from an empty log. -/
theorem claim1_resume_idempotence (env : Env) (qf : String → String → ℚ)
    (csv : List SourceMatch) (n : Nat) (hn : n ≤ csv.length)
    (hrow : ∀ sm ∈ csv, countNewlines (rowOf env qf sm) = 0) :
    countNewlines (writeRows env qf (csv.take n) "") = n ∧
    csv.drop (countNewlines (writeRows env qf (csv.take n) "")) = csv.drop n ∧
    mainRun env qf csv (writeRows env qf (csv.take n) "")
      = mainRun env qf csv "" := by
  have hlogN : writeRows env qf (csv.take n) "" = rowsText env qf (csv.take n) := by
    rw [writeRows_eq]
    exact String.empty_append _
  have hcount : countNewlines (writeRows env qf (csv.take n) "") = n := by
    rw [hlogN, countNewlines_rowsText env qf (csv.take n)
      fun sm hsm => hrow sm (List.mem_of_mem_take hsm)]
    rw [List.length_take]
    exact Nat.min_eq_left hn
  refine ⟨hcount, by rw [hcount], ?_⟩
  show writeRows env qf (csv.drop (countNewlines (writeRows env qf (csv.take n) "")))
      (writeRows env qf (csv.take n) "")
    = writeRows env qf (csv.drop (countNewlines "")) ""
  rw [hcount, hlogN, writeRows_eq, writeRows_eq,
    show countNewlines "" = 0 from rfl, List.drop_zero, String.empty_append,
    ← rowsText_append, List.take_append_drop]

/-- Witness for C1: two fixtures, a one-row prefix run, then a restart —
the resume offset is 1, the loop resumes at the second fixture, and the
final log equals the uninterrupted run's log. -/
theorem claim1_resume_idempotence_witness :
    countNewlines (writeRows envEx (fun _ _ => 0) ([smEx, smEx2].take 1) "") = 1 ∧
    [smEx, smEx2].drop
      (countNewlines (writeRows envEx (fun _ _ => 0) ([smEx, smEx2].take 1) ""))
      = [smEx, smEx2].drop 1 ∧
    mainRun envEx (fun _ _ => 0) [smEx, smEx2]
        (writeRows envEx (fun _ _ => 0) ([smEx, smEx2].take 1) "")
      = mainRun envEx (fun _ _ => 0) [smEx, smEx2] "" :=
  claim1_resume_idempotence envEx (fun _ _ => 0) [smEx, smEx2] 1
    (by decide) (by decide)

/-- C2.  For a source record whose division code is in the league map,
the hard filter retains exactly (and in order, as a sublist) those
candidates whose score text equals the source's
`"{homegoals} - {awaygoals}"` string and whose division path starts with
the mapped canonical path. -/
theorem claim2_hard_filter (sm : SourceMatch) (cands : List PageMatch) (path : String)
    (hmap : leagueMap sm.div = some path) :
    (matchingPageMatches sm cands).Sublist cands ∧
      ∀ m, m ∈ matchingPageMatches sm cands ↔
        m ∈ cands ∧ m.score = scoreOf sm ∧ jsStartsWith m.div path = true := by
  constructor
  · exact List.filter_sublist cands
  · intro m
    rw [matchingPageMatches, List.mem_filter, leagueLookup, hmap, Option.getD_some,
      Bool.and_eq_true, beq_iff_eq]

/-- Witness for C2: the spec's example candidate passes the filter for
the example fixture (code `"E0"` maps to `england/premier-league`). -/
theorem claim2_hard_filter_witness :
    pmEx ∈ matchingPageMatches smEx [pmEx] ↔
      pmEx ∈ [pmEx] ∧ pmEx.score = scoreOf smEx ∧
        jsStartsWith pmEx.div "england/premier-league" = true :=
  (claim2_hard_filter smEx [pmEx] "england/premier-league" rfl).2 pmEx

/-- C3 counterexample.  A sole surviving candidate trivially has the
strictly highest similarity among the survivors, yet when that
similarity is 0 the selection loop keeps nothing: `bestMatch` stays
null, so the claim that the matcher always selects the
strictly-highest-similarity survivor fails. -/
theorem claim3_counterexample :
    selectBest (fun _ => (0 : ℚ)) [pmEx] = (none, 0) ∧
    (selectBest (fun _ => (0 : ℚ)) [pmEx]).1 ≠ some pmEx := by
  decide

/-- C3 (amended).  Among the surviving candidates, if position `i` holds
the first candidate attaining the maximum similarity and that maximum is
strictly positive, the loop selects exactly that candidate together with
its similarity; in particular, ties at the maximum keep the first-seen
candidate.  (When no survivor has strictly positive similarity, nothing
is selected — see the counterexample and C10.) -/
theorem claim3_best_selection (q : PageMatch → ℚ) (ms : List PageMatch)
    (i : Nat) (hi : i < ms.length)
    (hpos : 0 < q ms[i])
    (hmax : ∀ (j : Nat) (hj : j < ms.length), q ms[j] ≤ q ms[i])
    (hfirst : ∀ (j : Nat) (hj1 : j < i) (hj2 : j < ms.length), q ms[j] < q ms[i]) :
    selectBest q ms = (some ms[i], q ms[i]) :=
  foldl_select_first_max q ms i hi none 0 hpos hmax hfirst

/-- Witness for C3 (amended): two survivors tied at similarity one half
— the first-seen candidate is kept, with that similarity. -/
theorem claim3_best_selection_witness :
    selectBest (fun _ => (1 : ℚ) / 2) [pmEx, pmEx2] = (some pmEx, (1 : ℚ) / 2) :=
  claim3_best_selection (fun _ => (1 : ℚ) / 2) [pmEx, pmEx2] 0 (by decide)
    (by norm_num) (fun _ _ => le_rfl) (fun j hj1 _ => absurd hj1 (Nat.not_lt_zero j))

/-- C4.  The index-page load-or-reuse step: when the frame is already on
the target URL the step returns immediately with no events at all; a
second consecutive call with the same URL emits nothing; and from any
other location, two consecutive calls perform exactly one underlying
navigation between them. -/
theorem claim4_ensure_loaded (loc url : String) :
    (loc = url → ensureDateLoaded loc url = (loc, [])) ∧
    (ensureDateLoaded (ensureDateLoaded loc url).1 url).2 = [] ∧
    (loc ≠ url →
      navCount ((ensureDateLoaded loc url).2
        ++ (ensureDateLoaded (ensureDateLoaded loc url).1 url).2) = 1) := by
  by_cases h : loc = url
  · exact ⟨fun _ => by simp [ensureDateLoaded, h], by simp [ensureDateLoaded, h],
      fun hne => absurd h hne⟩
  · refine ⟨fun he => absurd he h, ?_, fun _ => ?_⟩
    · simp [ensureDateLoaded, h]
    · simp [ensureDateLoaded, h, navCount, List.countP, List.countP.go, isNav]

/-- Witness for C4 at concrete locations: already-loaded reuse is a
no-op, and a double call from elsewhere navigates exactly once. -/
theorem claim4_ensure_loaded_witness :
    ensureDateLoaded "u" "u" = ("u", []) ∧
    navCount ((ensureDateLoaded "a" "u").2
      ++ (ensureDateLoaded (ensureDateLoaded "a" "u").1 "u").2) = 1 :=
  ⟨(claim4_ensure_loaded "u" "u").1 rfl,
   (claim4_ensure_loaded "a" "u").2.2 (by decide)⟩

/-- C5 counterexample.  In an iteration that actually loads the index
page, the navigation is the very first emitted event: the 1–2 second
delay comes after it (between the load and the UK click), so it is not
true that a rate-limiter delay precedes every issued navigation. -/
theorem claim5_counterexample :
    (stepFixture envEx (fun _ _ => mkRat 1 2) "" smEx).2.head?
      = some (.nav (dateURL smEx)) ∧
    navsDelayed (stepFixture envEx (fun _ _ => mkRat 1 2) "" smEx).2 = false ∧
    navCount (stepFixture envEx (fun _ _ => mkRat 1 2) "" smEx).2 = 2 := by
  decide

/-- C5 (amended).  The exact delay placement of one iteration: a
non-skipped index-page load emits navigation, then the 1–2 s delay, then
the UK click; a matched fixture's detail-page load is immediately
preceded by a 1–2 s delay; the row write is followed by the one 2–5 s
post-processing delay, which ends the trace.  In particular the
index-page navigation, when issued, is the first event of the iteration
and is not preceded by any delay. -/
theorem claim5_delay_placement (env : Env) (qf : String → String → ℚ)
    (loc : String) (sm : SourceMatch) :
    ((stepFixture env qf loc sm).2 =
      (if loc = dateURL sm then ([] : List Event)
        else [.nav (dateURL sm), .sleep 1 2, .clickUK])
      ++ (match (bestOf env qf sm).1 with
          | none => ([] : List Event)
          | some m => [.sleep 1 2, .nav m.URL])
      ++ [.write (rowOf env qf sm), .sleep 2 5]) ∧
    ((stepFixture env qf loc sm).2.getLast? = some (.sleep 2 5)) ∧
    (loc ≠ dateURL sm →
      (stepFixture env qf loc sm).2.head? = some (.nav (dateURL sm))) := by
  by_cases h : loc = dateURL sm <;>
    cases hb : (bestOf env qf sm).1 <;>
      refine ⟨?_, ?_, ?_⟩ <;>
        simp [stepFixture, ensureDateLoaded, h, hb]

/-- Witness for C5 (amended): from a fresh frame, the iteration's first
event is the index navigation (issued without a preceding delay). -/
theorem claim5_delay_placement_witness :
    (stepFixture envEx (fun _ _ => 0) "" smEx).2.head? = some (.nav (dateURL smEx)) :=
  (claim5_delay_placement envEx (fun _ _ => 0) "" smEx).2.2 (by decide)

/-- C7.  `writeCSV` serializes by kind: null/undefined become the empty
field, a number its decimal text — an integer number the decimal text of
the integer, and the fractional thousandths number `m / 1000` written in
the quality cell its canonical decimal text (integer part, then the
thousandths digits with trailing zeros stripped, no fraction part when
they are all zero) — a boolean `"1"`/`"0"`, a platform ISO timestamp
turns into the `"YYYY-MM-DD HH:MM:SS.mmm"` form (the single `'T'`
becomes a space and the single trailing `'Z'` is dropped), and any other
value is quoted with internal double quotes doubled. -/
theorem claim7_serialization :
    (serializeValue .vnull = "") ∧
    (∀ n : Int, serializeValue (.vnum n) = toString n) ∧
    (∀ m : Int, serializeValue (.vdec m) = decimalTextThousandths m) ∧
    (∀ b, serializeValue (.vbool b) = if b then "1" else "0") ∧
    (∀ d t : String, 'T' ∉ d.data → 'Z' ∉ d.data → 'Z' ∉ t.data →
      serializeValue (.vdate (d ++ "T" ++ t ++ "Z")) = d ++ " " ++ t) ∧
    (∀ s, serializeValue (.vstr s) =
      "\"" ++ (⟨doubleQuotes s.data⟩ : String) ++ "\"") := by
  refine ⟨rfl, fun _ => rfl, fun m => thousandthsRepr_eq_decimalText m, fun _ => rfl,
    ?_, fun _ => rfl⟩
  intro d t hTd hZd hZt
  show dateText (d ++ "T" ++ t ++ "Z") = d ++ " " ++ t
  have hdata : (d ++ "T" ++ t ++ "Z").data = d.data ++ 'T' :: (t.data ++ ['Z']) := by
    simp [String.data_append]
  rw [dateText, hdata,
    replaceFirstChar_append_of_not_mem 'T' [' '] d.data ('T' :: (t.data ++ ['Z'])) hTd]
  have h1 : replaceFirstChar 'T' [' '] ('T' :: (t.data ++ ['Z']))
      = ' ' :: (t.data ++ ['Z']) := by
    simp [replaceFirstChar]
  rw [h1]
  have h2 : 'Z' ∉ d.data ++ ' ' :: t.data := by
    intro hmem
    rcases List.mem_append.mp hmem with h | h
    · exact hZd h
    · rcases List.mem_cons.mp h with h | h
      · exact absurd h (by decide)
      · exact hZt h
  have h3 : d.data ++ ' ' :: (t.data ++ ['Z']) = (d.data ++ ' ' :: t.data) ++ ['Z'] := by
    simp
  rw [h3, replaceFirstChar_append_of_not_mem 'Z' [] (d.data ++ ' ' :: t.data) ['Z'] h2]
  have h4 : replaceFirstChar 'Z' ([] : List Char) ['Z'] = [] := by
    simp [replaceFirstChar]
  rw [h4, List.append_nil]
  show String.mk (d.data ++ ' ' :: t.data) = d ++ " " ++ t
  apply String.ext
  simp [String.data_append]

/-- Witness for C7: a concrete ISO timestamp turns into the fixed UTC
text with the space separator and no trailing `Z`, and the concrete
thousandths number 1500/1000 gets its canonical decimal text. -/
theorem claim7_serialization_witness :
    serializeValue (.vdate ("2018-01-01" ++ "T" ++ "15:00:00.000" ++ "Z"))
      = "2018-01-01" ++ " " ++ "15:00:00.000" ∧
    serializeValue (.vdec 1500) = decimalTextThousandths 1500 :=
  ⟨claim7_serialization.2.2.2.2.1 "2018-01-01" "15:00:00.000"
    (by decide) (by decide) (by decide),
   claim7_serialization.2.2.1 1500⟩

/-- C8 counterexample.  For the spec's example fixture, candidate and
detail page, the goal-events text produced by the code is not the
claimed `"10:home:1-0 / 55:away:1-1 / 80:home:2-1"`: the code writes a
space on each side of the colons. -/
theorem claim8_counterexample :
    goalsText dpEx.scotGoals ≠ "10:home:1-0 / 55:away:1-1 / 80:home:2-1" ∧
    (fixtureValues envEx (fun _ _ => mkRat 1 2) smEx).getD 7 .vnull
      ≠ .vstr "10:home:1-0 / 55:away:1-1 / 80:home:2-1" := by
  decide

/-- C8 (amended).  End-to-end on the spec's example (fixture E0
2018-01-01 Town FC 2–1 City FC, candidate Town F.C. / City F.C. with a
detail page giving kickoff 15:00 and goals at minutes 10, 55, 80): the
row's goal-events value is the ordered `"minute : team : score"` triples
— with a space on each side of each colon — joined by `" / "`, i.e.
exactly `"10 : home : 1-0 / 55 : away : 1-1 / 80 : home : 2-1"`; the
kickoff value is `"15:00"` and the matched names are Town F.C. and
City F.C. -/
theorem claim8_goal_text :
    (fixtureValues envEx (fun _ _ => mkRat 1 2) smEx).getD 7 .vnull
      = .vstr "10 : home : 1-0 / 55 : away : 1-1 / 80 : home : 2-1" ∧
    (fixtureValues envEx (fun _ _ => mkRat 1 2) smEx).getD 6 .vnull = .vstr "15:00" ∧
    (fixtureValues envEx (fun _ _ => mkRat 1 2) smEx).getD 9 .vnull = .vstr "Town F.C." ∧
    (fixtureValues envEx (fun _ _ => mkRat 1 2) smEx).getD 10 .vnull = .vstr "City F.C." ∧
    goalsText dpEx.scotGoals
      = "10 : home : 1-0 / 55 : away : 1-1 / 80 : home : 2-1" := by
  decide

theorem toFixed3_zero : toFixed3 0 = 0 := by
  decide

/-- C10 (amended).  When the survivors of the hard filter all have
similarity 0 — even when there is at least one survivor — the match
result is still "no match": `bestMatch` is null and the quality is 0, so
the written row's kickoff and matched-name cells are empty, its quality
cell is `"0"`, and its goal-events cell is the quoted empty string
`""""` (two double-quote characters — the empty goal list is serialized
as quoted text, not as an absent/empty field). -/
theorem claim10_zero_similarity (env : Env) (qf : String → String → ℚ)
    (sm : SourceMatch)
    (hne : matchingPageMatches sm (env.pages (dateURL sm)) ≠ [])
    (hzero : ∀ m ∈ matchingPageMatches sm (env.pages (dateURL sm)), qOf qf sm m = 0) :
    bestOf env qf sm = (none, 0) ∧
    ((fixtureValues env qf sm).map serializeValue).getD 6 "#" = "" ∧
    ((fixtureValues env qf sm).map serializeValue).getD 7 "#" = "\"\"" ∧
    ((fixtureValues env qf sm).map serializeValue).getD 8 "#" = "0" ∧
    ((fixtureValues env qf sm).map serializeValue).getD 9 "#" = "" ∧
    ((fixtureValues env qf sm).map serializeValue).getD 10 "#" = "" := by
  have hsel : bestOf env qf sm = (none, 0) := by
    apply foldl_select_no_update
    intro m hm
    rw [hzero m hm]
  refine ⟨hsel, ?_, ?_, ?_, ?_, ?_⟩ <;>
    simp [fixtureValues, hsel, List.getD, serializeValue, goalsText, toFixed3_zero,
      thousandthsRepr] <;> rfl

/-- C10 counterexample.  A concrete run with one surviving candidate
whose similarity is 0: the goals cell of the written row is the
two-character quoted empty string, not an empty field as the claim
states. -/
theorem claim10_counterexample :
    matchingPageMatches smEx (envEx.pages (dateURL smEx)) ≠ [] ∧
    (∀ m ∈ matchingPageMatches smEx (envEx.pages (dateURL smEx)),
      qOf (fun _ _ => 0) smEx m = 0) ∧
    ((fixtureValues envEx (fun _ _ => 0) smEx).map serializeValue).getD 7 "#" = "\"\"" ∧
    ((fixtureValues envEx (fun _ _ => 0) smEx).map serializeValue).getD 7 "#" ≠ "" := by
  decide

/-- Witness for C10 (amended): the example environment with a
zero-similarity function — one survivor, no match selected, empty
kickoff/name cells, quality cell `"0"`, quoted-empty goals cell. -/
theorem claim10_zero_similarity_witness :
    bestOf envEx (fun _ _ => 0) smEx = (none, 0) ∧
    ((fixtureValues envEx (fun _ _ => 0) smEx).map serializeValue).getD 6 "#" = "" ∧
    ((fixtureValues envEx (fun _ _ => 0) smEx).map serializeValue).getD 7 "#" = "\"\"" ∧
    ((fixtureValues envEx (fun _ _ => 0) smEx).map serializeValue).getD 8 "#" = "0" ∧
    ((fixtureValues envEx (fun _ _ => 0) smEx).map serializeValue).getD 9 "#" = "" ∧
    ((fixtureValues envEx (fun _ _ => 0) smEx).map serializeValue).getD 10 "#" = "" :=
  claim10_zero_similarity envEx (fun _ _ => 0) smEx (by decide) (by decide)

/-- C9.  Goal extraction: when the Scotland-style (primary) extraction
yields no events the England-style (secondary) list is used, and when
the primary yields at least one event the secondary is ignored; the
fallback is a total, local computation (no error is raised or
propagated). -/
theorem claim9_goal_fallback (p : DetailPage) :
    (p.scotGoals = [] → goalsOf p = p.engGoals) ∧
    (p.scotGoals ≠ [] → goalsOf p = p.scotGoals) := by
  constructor
  · intro h
    simp [goalsOf, h]
  · intro h
    rw [goalsOf, if_neg]
    simpa [List.length_eq_zero] using h

theorem foldl_obs_disconnected :
    ∀ (batches : List (List MutationRecord)) (n : Nat),
      batches.foldl obsStep ⟨false, n⟩ = ⟨false, n⟩ := by
  intro batches
  induction batches with
  | nil => intro n; rfl
  | cons b bs ih =>
    intro n
    simp only [List.foldl_cons, obsStep, Bool.false_and, if_neg (Bool.false_ne_true)]
    exact ih n

theorem foldl_obs_clean :
    ∀ (batches : List (List MutationRecord)) (n : Nat),
      (∀ b ∈ batches, removedOverlay b = false) →
      batches.foldl obsStep ⟨true, n⟩ = ⟨true, n⟩ := by
  intro batches
  induction batches with
  | nil => intro n _; rfl
  | cons b bs ih =>
    intro n h
    have hb : removedOverlay b = false := h b (List.mem_cons_self b bs)
    simp only [List.foldl_cons, obsStep, hb, Bool.true_and, Bool.and_false,
      if_neg (Bool.false_ne_true)]
    exact ih n fun x hx => h x (List.mem_cons_of_mem b hx)

theorem clickUK_fires_first :
    ∀ (pre : List (List MutationRecord)) (b : List MutationRecord)
      (post : List (List MutationRecord)),
      (∀ b' ∈ pre, removedOverlay b' = false) → removedOverlay b = true →
      clickUKRun (pre ++ b :: post) = ⟨false, 1⟩ := by
  intro pre
  induction pre with
  | nil =>
    intro b post _ hb
    show (b :: post).foldl obsStep ⟨true, 0⟩ = ⟨false, 1⟩
    simp only [List.foldl_cons, obsStep, hb, Bool.true_and, if_pos rfl]
    exact foldl_obs_disconnected post 1
  | cons p pre ih =>
    intro b post hpre hb
    have hp : removedOverlay p = false := hpre p (List.mem_cons_self p pre)
    show ((p :: (pre ++ b :: post)).foldl obsStep ⟨true, 0⟩ : ObsState) = ⟨false, 1⟩
    simp only [List.foldl_cons, obsStep, hp, Bool.and_false,
      if_neg (Bool.false_ne_true)]
    exact ih b post (fun x hx => hpre x (List.mem_cons_of_mem p hx)) hb

theorem exists_first_removal :
    ∀ (batches : List (List MutationRecord)),
      (∃ b ∈ batches, removedOverlay b = true) →
      ∃ pre b post, batches = pre ++ b :: post ∧ removedOverlay b = true ∧
        ∀ b' ∈ pre, removedOverlay b' = false := by
  intro batches
  induction batches with
  | nil => intro h; simp at h
  | cons a bs ih =>
    intro h
    cases ha : removedOverlay a with
    | true => exact ⟨[], a, bs, rfl, ha, by simp⟩
    | false =>
      have : ∃ b ∈ bs, removedOverlay b = true := by
        rcases h with ⟨b, hb, hrb⟩
        rcases List.mem_cons.mp hb with rfl | hb'
        · exact absurd hrb (by simp [ha])
        · exact ⟨b, hb', hrb⟩
      rcases ih this with ⟨pre, b, post, heq, hrb, hpre⟩
      refine ⟨a :: pre, b, post, by rw [heq]; rfl, hrb, ?_⟩
      intro b' hb'
      rcases List.mem_cons.mp hb' with rfl | hb''
      · exact ha
      · exact hpre b' hb''

/-- C6.  The `clickUK` mutation wait, run over any sequence of delivered
mutation batches: it resolves at most once; it resolves exactly once iff
some batch contains a node removal (insertion-only batches never
resolve it); the observer stays connected iff no removal was seen; and
on the first removal-containing batch it disconnects and resolves, with
every later batch ignored. -/
theorem claim6_mutation_wait (batches : List (List MutationRecord)) :
    ((clickUKRun batches).resolved ≤ 1) ∧
    ((clickUKRun batches).resolved = 1 ↔ ∃ b ∈ batches, removedOverlay b = true) ∧
    ((clickUKRun batches).connected = true ↔
      ∀ b ∈ batches, removedOverlay b = false) ∧
    (∀ pre b post, batches = pre ++ b :: post →
      (∀ b' ∈ pre, removedOverlay b' = false) → removedOverlay b = true →
      clickUKRun batches = ⟨false, 1⟩ ∧ clickUKRun (pre ++ [b]) = ⟨false, 1⟩) := by
  have hlast : ∀ pre b post, batches = pre ++ b :: post →
      (∀ b' ∈ pre, removedOverlay b' = false) → removedOverlay b = true →
      clickUKRun batches = ⟨false, 1⟩ ∧ clickUKRun (pre ++ [b]) = ⟨false, 1⟩ := by
    intro pre b post heq hpre hb
    exact ⟨heq ▸ clickUK_fires_first pre b post hpre hb,
      clickUK_fires_first pre b [] hpre hb⟩
  by_cases hc : ∀ b ∈ batches, removedOverlay b = false
  · have hrun : clickUKRun batches = ⟨true, 0⟩ := foldl_obs_clean batches 0 hc
    refine ⟨by rw [hrun]; exact Nat.zero_le 1, ?_, ?_, hlast⟩
    · rw [hrun]
      simp only [show (0 : Nat) = 1 ↔ False by simp, false_iff]
      intro ⟨b, hb, hrb⟩
      exact absurd hrb (by simp [hc b hb])
    · rw [hrun]
      exact ⟨fun _ => hc, fun _ => rfl⟩
  · have hex : ∃ b ∈ batches, removedOverlay b = true := by
      push_neg at hc
      rcases hc with ⟨b, hb, hrb⟩
      exact ⟨b, hb, by simpa using hrb⟩
    rcases exists_first_removal batches hex with ⟨pre, b, post, heq, hrb, hpre⟩
    have hrun : clickUKRun batches = ⟨false, 1⟩ :=
      heq ▸ clickUK_fires_first pre b post hpre hrb
    refine ⟨by rw [hrun], ?_, ?_, hlast⟩
    · rw [hrun]
      simp only [true_iff]
      exact ⟨b, heq ▸ List.mem_append_right pre (List.mem_cons_self b post), hrb⟩
    · rw [hrun]
      constructor
      · intro hfalse
        exact absurd hfalse (by simp)
      · intro hall
        exact absurd (hall b (heq ▸ List.mem_append_right pre (List.mem_cons_self b post)))
          (by simp [hrb])

/-- Witness for C6: with an insertion-only batch, then a removal batch,
then a further removal batch, the wait fires exactly once (at the first
removal) and the observer ends disconnected with one resolution. -/
theorem claim6_mutation_wait_witness :
    clickUKRun [[⟨1, 0⟩], [⟨0, 1⟩], [⟨0, 2⟩]] = ⟨false, 1⟩ ∧
    clickUKRun [[⟨1, 0⟩], [⟨0, 1⟩]] = ⟨false, 1⟩ :=
  (claim6_mutation_wait [[⟨1, 0⟩], [⟨0, 1⟩], [⟨0, 2⟩]]).2.2.2
    [[⟨1, 0⟩]] [⟨0, 1⟩] [[⟨0, 2⟩]] rfl (by decide) (by decide)

/-- Witness for C9: a page with no Scotland-style rows falls back to the
England-style list; the example page with Scotland-style rows keeps
them. -/
theorem claim9_goal_fallback_witness :
    goalsOf ⟨"15:00", [], [⟨10, "home", "1-0"⟩]⟩ = [⟨10, "home", "1-0"⟩] ∧
    goalsOf dpEx = dpEx.scotGoals :=
  ⟨(claim9_goal_fallback ⟨"15:00", [], [⟨10, "home", "1-0"⟩]⟩).1 rfl,
   (claim9_goal_fallback dpEx).2 (by decide)⟩

end Scrape
